import Mathlib

/-!
Verification of the Gateway Link & OTA Engine of the EarthQuake_OTA backend
(`backend_api_server.py`), as a shallow embedding.  Python dictionaries keyed
by node id are modelled as association lists, the in-memory registries
(`nodes`, `ota_history`, `ota_sessions`) as a `ServerState` record, serial
frames and socket events as inductive types, and the handlers
(`send_ota_chunk`, `handle_ota_result`, `handle_ota_check_auto`,
`auto_ota_worker`, `ota_update_core`, ...) as pure functions over that state.
Network and filesystem effects (manifest fetch outcome, download outcome,
hash computation, serial-write success) enter as explicit parameters.
-/

namespace OTA

/-! ## Python dict modelled as an association list keyed by node id -/

def dictLookup {α : Type} : List (Nat × α) → Nat → Option α
  | [], _ => none
  | p :: rest, k => if p.1 = k then some p.2 else dictLookup rest k

def dictInsert {α : Type} : List (Nat × α) → Nat → α → List (Nat × α)
  | [], k, v => [(k, v)]
  | p :: rest, k, v => if p.1 = k then (k, v) :: rest else p :: dictInsert rest k v

def dictErase {α : Type} : List (Nat × α) → Nat → List (Nat × α)
  | [], _ => []
  | p :: rest, k => if p.1 = k then dictErase rest k else p :: dictErase rest k

def keysNodup {α : Type} (d : List (Nat × α)) : Prop :=
  (d.map Prod.fst).Nodup

/-! ## base64 (`base64.b64encode` on the firmware chunk bytes) -/

def b64chars : List Char :=
  "ABCDEFGHIJKLMNOPQRSTUVWXYZabcdefghijklmnopqrstuvwxyz0123456789+/".toList

def b64char (n : Nat) : Char := b64chars.getD n 'A'

def b64index (c : Char) : Nat := b64chars.findIdx (fun d => d = c)

def b64encode : List Nat → List Char
  | [] => []
  | [a] => [b64char (a / 4), b64char (a % 4 * 16), '=', '=']
  | [a, b] => [b64char (a / 4), b64char (a % 4 * 16 + b / 16), b64char (b % 16 * 4), '=']
  | a :: b :: c :: rest =>
    b64char (a / 4) :: b64char (a % 4 * 16 + b / 16) ::
    b64char (b % 16 * 4 + c / 64) :: b64char (c % 64) :: b64encode rest

def b64decode : List Char → List Nat
  | c1 :: c2 :: c3 :: c4 :: rest =>
    let i1 := b64index c1
    let i2 := b64index c2
    let i3 := b64index c3
    let i4 := b64index c4
    if rest = [] then
      if c3 = '=' then [i1 * 4 + i2 / 16]
      else if c4 = '=' then [i1 * 4 + i2 / 16, i2 % 16 * 16 + i3 / 4]
      else [i1 * 4 + i2 / 16, i2 % 16 * 16 + i3 / 4, i3 % 4 * 64 + i4]
    else
      (i1 * 4 + i2 / 16) :: (i2 % 16 * 16 + i3 / 4) :: (i3 % 4 * 64 + i4) :: b64decode rest
  | _ => []

/-! ## `compare_versions` (Python `int()` parse on the dot-separated parts) -/

def stripWs (cs : List Char) : List Char :=
  ((cs.dropWhile Char.isWhitespace).reverse.dropWhile Char.isWhitespace).reverse

def noDoubleUnderscore : List Char → Bool
  | c1 :: c2 :: rest =>
    if c1 = '_' && c2 = '_' then false else noDoubleUnderscore (c2 :: rest)
  | _ => true

def validDigits (cs : List Char) : Bool :=
  !cs.isEmpty &&
  cs.head?.all Char.isDigit &&
  cs.getLast?.all Char.isDigit &&
  cs.all (fun c => c.isDigit || c = '_') &&
  noDoubleUnderscore cs

def digitsVal (cs : List Char) : Nat :=
  (cs.filter (fun c => c ≠ '_')).foldl (fun a c => a * 10 + (c.toNat - '0'.toNat)) 0

def pyInt (s : String) : Option Int :=
  match stripWs s.toList with
  | '+' :: rest => if validDigits rest then some (Int.ofNat (digitsVal rest)) else none
  | '-' :: rest => if validDigits rest then some (-(Int.ofNat (digitsVal rest))) else none
  | cs => if validDigits cs then some (Int.ofNat (digitsVal cs)) else none

def splitDots : List Char → List (List Char)
  | [] => [[]]
  | '.' :: rest => [] :: splitDots rest
  | c :: rest =>
    match splitDots rest with
    | g :: gs => (c :: g) :: gs
    | [] => [[c]]

def parseVer (s : String) : Option (List Int) :=
  ((splitDots s.toList).map (fun cs => pyInt (String.mk cs))).foldr
    (fun o acc =>
      match o, acc with
      | some x, some xs => some (x :: xs)
      | _, _ => none)
    (some [])

def cmpLoop : List Int → List Int → Bool
  | c :: cs, l :: ls =>
    if c < l then true
    else if l < c then false
    else cmpLoop cs ls
  | _, _ => false

def compare_versions (current latest : String) : Bool :=
  match parseVer current, parseVer latest with
  | some cs, some ls => cmpLoop cs ls
  | _, _ => current != latest

/-! ## Data model: node registry, OTA history log, session map -/

structure Node where
  id : Nat
  name : String
  version : String
  role : String
  status : String
deriving DecidableEq

structure Session where
  firmware_data : List Nat
  version : String
  size : Nat
  chunk_size : Nat
  node_name : String
  auto : Bool
deriving DecidableEq

structure HistoryEntry where
  entry_id : Nat
  node_id : Nat
  node_name : String
  version : String
  status : String
  initiated_by : String
  timestamp : String
  file_size : Nat
  completed_at : Option String
deriving DecidableEq

structure ServerState where
  nodes : List Node
  ota_history : List HistoryEntry
  ota_sessions : List (Nat × Session)
deriving DecidableEq

inductive Frame where
  | ota_offer (target_node : Nat) (version : String) (size chunk : Nat)
  | ota_chunk (target_node : Nat) (idx : Nat) (data : List Char)
  | ota_end (target_node : Nat)
deriving DecidableEq

inductive Event where
  | ota_progress (auto : Bool) (node_id : Nat) (progress chunk bytes_sent total_bytes : Nat)
  | node_status_change (node_id : Nat) (status : String)
  | ota_complete (auto : Bool) (node_id : Nat) (success : Bool) (message new_version : String)
  | ota_error_evt (auto : Bool) (node_id : Nat) (error : String)
  | auto_ota_started (node_id : Nat)
  | auto_ota_failed (node_id : Nat) (error : String)
deriving DecidableEq

/-- `next((n for n in nodes if n['id'] == node_id), None)`. -/
def findNode : List Node → Nat → Option Node
  | [], _ => none
  | nd :: rest, k => if nd.id = k then some nd else findNode rest k

/-- Mutation of the node object returned by `next(...)`: updates the first
node in the list whose id matches, leaves the rest untouched. -/
def updateFirstNode (f : Node → Node) (nid : Nat) : List Node → List Node
  | [] => []
  | nd :: rest => if nd.id = nid then f nd :: rest else nd :: updateFirstNode f nid rest

/-- The `for ota_event in ota_history: ... break` loop of `handle_ota_result`:
updates the first entry (in list order, i.e. the oldest appended) whose
`node_id` matches and whose status is `"initiated"`, then stops. -/
def markFirstInitiated (nid : Nat) (newStatus now : String) : List HistoryEntry → List HistoryEntry
  | [] => []
  | e :: rest =>
    if e.node_id = nid ∧ e.status = "initiated" then
      { e with status := newStatus, completed_at := some now } :: rest
    else
      e :: markFirstInitiated nid newStatus now rest

/-! ## OTA protocol handlers (`GatewayConnection`) -/

structure ChunkResult where
  state : ServerState
  frame : Option Frame
  events : List Event
  ok : Bool
deriving DecidableEq

/-- `GatewayConnection.send_ota_chunk`.  `sendOk` models the return value of
`send_command` (serial write success); the frame field records the frame
passed to `send_command`, if any. -/
def send_ota_chunk (st : ServerState) (node_id chunk_idx : Nat) (sendOk : Bool) : ChunkResult :=
  match dictLookup st.ota_sessions node_id with
  | none => ⟨st, none, [], false⟩
  | some session =>
    let firmware := session.firmware_data
    let chunk_size := session.chunk_size
    let total_size := firmware.length
    let is_auto := session.auto
    let start := chunk_idx * chunk_size
    let stop := min (start + chunk_size) total_size
    if total_size ≤ start then
      ⟨st, some (Frame.ota_end node_id), [], true⟩
    else
      let chunk_data := (firmware.drop start).take (stop - start)
      let bytes_sent := min stop total_size
      let events :=
        if sendOk then
          [Event.ota_progress is_auto node_id (bytes_sent * 100 / total_size)
            chunk_idx bytes_sent total_size]
        else []
      ⟨st, some (Frame.ota_chunk node_id chunk_idx (b64encode chunk_data)), events, sendOk⟩

/-- `GatewayConnection.handle_ota_accept`: without a session it only logs;
with one it sends chunk index 0. -/
def handle_ota_accept (st : ServerState) (node_id : Nat) (sendOk : Bool) : ChunkResult :=
  if (dictLookup st.ota_sessions node_id).isNone then ⟨st, none, [], false⟩
  else send_ota_chunk st node_id 0 sendOk

/-- `GatewayConnection.handle_ota_next`. -/
def handle_ota_next (st : ServerState) (node_id idx : Nat) (sendOk : Bool) : ChunkResult :=
  if (dictLookup st.ota_sessions node_id).isNone then ⟨st, none, [], false⟩
  else send_ota_chunk st node_id idx sendOk

/-- `GatewayConnection.handle_ota_result`.  The node/history update runs only
under `if success and new_version:` and only when the node is found; the
history loop writes `'completed' if success else 'failed'`; the session is
deleted when present; a completion event is always emitted. -/
def handle_ota_result (st : ServerState) (node_id : Nat) (ok : Bool)
    (msg new_version now : String) : ServerState × List Event :=
  let is_auto := ((dictLookup st.ota_sessions node_id).map Session.auto).getD false
  let st1 :=
    if ok = true ∧ new_version ≠ "" then
      match findNode st.nodes node_id with
      | some _ =>
        { st with
          nodes := updateFirstNode
            (fun nd => { nd with version := new_version, status := "online" }) node_id st.nodes,
          ota_history := markFirstInitiated node_id
            (if ok then "completed" else "failed") now st.ota_history }
      | none => st
    else st
  let st2 := { st1 with ota_sessions := dictErase st1.ota_sessions node_id }
  (st2, [Event.ota_complete is_auto node_id ok msg new_version])

/-- `GatewayConnection.handle_ota_error`. -/
def handle_ota_error (st : ServerState) (node_id : Nat) (error_msg : String) :
    ServerState × List Event :=
  let is_auto := ((dictLookup st.ota_sessions node_id).map Session.auto).getD false
  ({ st with ota_sessions := dictErase st.ota_sessions node_id },
   [Event.ota_error_evt is_auto node_id error_msg])

/-! ## Auto-OTA trigger (`handle_ota_check_auto`) and worker -/

structure ManifestInfo where
  url : String
  sha256_hex : Option String
  version : String
deriving DecidableEq

structure WorkerArgs where
  node_id : Nat
  node_name : String
  firmware_url : String
  sha256_hex : Option String
  version : String
deriving DecidableEq

/-- `GatewayConnection.handle_ota_check_auto`.  `manifest` is the result of
`get_firmware_url_for_role(role)` (`none` when the manifest fetch failed or
has no URL for the role); `cooldowns` is the `last_auto_ota` dict; `now` is
`time.time()` in whole seconds; the third component of the result records
the arguments of the spawned `auto_ota_worker` thread, if one is started. -/
def handle_ota_check_auto (st : ServerState) (cooldowns : List (Nat × Nat))
    (enabled : Bool) (now : Nat) (node_id : Nat) (node_role current_fw : String)
    (manifest : Option ManifestInfo) :
    ServerState × List (Nat × Nat) × Option WorkerArgs :=
  if !enabled then (st, cooldowns, none)
  else
    let last_update := (dictLookup cooldowns node_id).getD 0
    if now - last_update < 300 then (st, cooldowns, none)
    else
      match manifest with
      | none => (st, cooldowns, none)
      | some mi =>
        if !compare_versions current_fw mi.version then (st, cooldowns, none)
        else
          match findNode st.nodes node_id with
          | some nd =>
            (st, dictInsert cooldowns node_id now,
             some ⟨node_id, nd.name, mi.url, mi.sha256_hex, mi.version⟩)
          | none =>
            let newNode : Node :=
              ⟨node_id, "Node_" ++ toString node_id, current_fw, node_role, "online"⟩
            ({ st with nodes := st.nodes ++ [newNode] },
             dictInsert cooldowns node_id now,
             some ⟨node_id, newNode.name, mi.url, mi.sha256_hex, mi.version⟩)

/-- Outcome of the firmware download in `auto_ota_worker`: an exception before
the temp file is created (`raise_for_status`/connection refused), an
exception after creation while streaming the body, or a complete body. -/
inductive DownloadOutcome where
  | failBeforeTemp
  | failAfterTemp (leftover : List Nat)
  | ok (bytes : List Nat)
deriving DecidableEq

structure WorkerResult where
  tempCreated : Bool
  tempRemoved : Bool
  state : ServerState
  frames : List Frame
  events : List Event
deriving DecidableEq

/-- `GatewayConnection.auto_ota_worker`.  `hashFn` abstracts
`hashlib.sha256(...).hexdigest()` over the downloaded bytes; `hashRaises`
models an exception raised while computing the digest; `sendOk` the result
of `send_command` for the `ota_offer` frame.  `tempCreated`/`tempRemoved`
track the `tempfile.mkstemp` artifact. -/
def auto_ota_worker (st : ServerState) (node_id : Nat) (node_name : String)
    (sha256_hash : Option String) (version : String) (dl : DownloadOutcome)
    (hashFn : List Nat → String) (hashRaises : Bool) (sendOk : Bool) (now : String) :
    WorkerResult :=
  let started : List Event := [Event.auto_ota_started node_id]
  match dl with
  | .failBeforeTemp =>
    ⟨false, false, st, [], started ++ [Event.auto_ota_failed node_id "Download failed"]⟩
  | .failAfterTemp _ =>
    ⟨true, false, st, [], started ++ [Event.auto_ota_failed node_id "Download failed"]⟩
  | .ok firmware_data =>
    let sendPhase : WorkerResult :=
      let file_size := firmware_data.length
      let sess : Session := ⟨firmware_data, version, file_size, 1024, node_name, true⟩
      let sessions1 := dictInsert st.ota_sessions node_id sess
      let offer := Frame.ota_offer node_id version file_size 1024
      if sendOk then
        let entry : HistoryEntry :=
          ⟨st.ota_history.length + 1, node_id, node_name, version, "initiated",
           "AUTO_OTA", now, file_size, none⟩
        ⟨true, true,
         ⟨updateFirstNode (fun nd => { nd with status := "updating" }) node_id st.nodes,
          st.ota_history ++ [entry], sessions1⟩,
         [offer],
         started ++ [Event.node_status_change node_id "updating"]⟩
      else
        ⟨true, true, { st with ota_sessions := dictErase sessions1 node_id }, [offer], started⟩
    match sha256_hash with
    | some expected =>
      if hashRaises then ⟨true, true, st, [], started⟩
      else if (hashFn firmware_data).toLower ≠ expected.toLower then
        ⟨true, true, st, [],
         started ++ [Event.auto_ota_failed node_id "SHA256 verification failed"]⟩
      else sendPhase
    | none => sendPhase

/-! ## Manual OTA trigger (`ota_update_core`) -/

inductive ApiResponse where
  | apiError (code : Nat) (msg : String)
  | apiOk (ota_id : Nat) (msg : String)
deriving DecidableEq

structure CoreResult where
  state : ServerState
  response : ApiResponse
  frames : List Frame
  events : List Event
deriving DecidableEq

/-- `ota_update_core`.  `fileContent` models the firmware file at `filepath`
(`none` when `os.path.exists` fails); `connected` the gateway connection
check; `sendOk` the `send_command` result for the offer frame. -/
def ota_update_core (st : ServerState) (node_id : Nat) (version : String)
    (fileContent : Option (List Nat)) (initiated_by : String)
    (connected sendOk : Bool) (now : String) : CoreResult :=
  match fileContent with
  | none => ⟨st, .apiError 404 "Firmware not found", [], []⟩
  | some firmware_data =>
    match findNode st.nodes node_id with
    | none => ⟨st, .apiError 404 "Node not found", [], []⟩
    | some node =>
      if !connected then ⟨st, .apiError 503 "Gateway not connected", [], []⟩
      else
        let file_size := firmware_data.length
        let sess : Session := ⟨firmware_data, version, file_size, 1024, node.name, false⟩
        let sessions1 := dictInsert st.ota_sessions node_id sess
        let offer := Frame.ota_offer node_id version file_size 1024
        if !sendOk then
          ⟨{ st with ota_sessions := dictErase sessions1 node_id },
           .apiError 500 "Failed to send OTA offer", [offer], []⟩
        else
          let entry : HistoryEntry :=
            ⟨st.ota_history.length + 1, node_id, node.name, version, "initiated",
             initiated_by, now, file_size, none⟩
          ⟨⟨updateFirstNode (fun nd => { nd with status := "updating" }) node_id st.nodes,
            st.ota_history ++ [entry], sessions1⟩,
           .apiOk entry.entry_id ("OTA initiated for " ++ node.name ++ " to v" ++ version),
           [offer],
           [Event.node_status_change node_id "updating"]⟩

/-! ## Dictionary lemmas -/

theorem dictLookup_insert_self {α : Type} (d : List (Nat × α)) (k : Nat) (v : α) :
    dictLookup (dictInsert d k v) k = some v := by
  induction d with
  | nil => simp [dictInsert, dictLookup]
  | cons p rest ih =>
    by_cases h : p.1 = k
    · simp [dictInsert, dictLookup, h]
    · simp [dictInsert, dictLookup, h, ih]

theorem dictLookup_insert_ne {α : Type} (d : List (Nat × α)) (k m : Nat) (v : α)
    (h : m ≠ k) : dictLookup (dictInsert d k v) m = dictLookup d m := by
  have hkm : ¬ k = m := fun e => h e.symm
  induction d with
  | nil => simp [dictInsert, dictLookup, hkm]
  | cons p rest ih =>
    by_cases hp : p.1 = k
    · have hpm : ¬ p.1 = m := by rw [hp]; exact hkm
      rw [dictInsert, if_pos hp, dictLookup, if_neg hkm, dictLookup, if_neg hpm]
    · rw [dictInsert, if_neg hp, dictLookup, dictLookup]
      by_cases hm : p.1 = m
      · rw [if_pos hm, if_pos hm]
      · rw [if_neg hm, if_neg hm, ih]

theorem dictErase_of_lookup_none {α : Type} (d : List (Nat × α)) (k : Nat)
    (h : dictLookup d k = none) : dictErase d k = d := by
  induction d with
  | nil => rfl
  | cons p rest ih =>
    by_cases hp : p.1 = k
    · simp [dictLookup, hp] at h
    · simp only [dictLookup, if_neg hp] at h
      simp [dictErase, hp, ih h]

theorem dictLookup_erase_self {α : Type} (d : List (Nat × α)) (k : Nat) :
    dictLookup (dictErase d k) k = none := by
  induction d with
  | nil => rfl
  | cons p rest ih =>
    by_cases hp : p.1 = k
    · simp [dictErase, hp, ih]
    · simp [dictErase, dictLookup, hp, ih]

theorem dictLookup_erase_ne {α : Type} (d : List (Nat × α)) (k m : Nat) (h : m ≠ k) :
    dictLookup (dictErase d k) m = dictLookup d m := by
  induction d with
  | nil => rfl
  | cons p rest ih =>
    by_cases hp : p.1 = k
    · have hpm : ¬ p.1 = m := by rw [hp]; exact fun e => h e.symm
      rw [dictErase, if_pos hp, ih, dictLookup, if_neg hpm]
    · rw [dictErase, if_neg hp, dictLookup, dictLookup]
      by_cases hm : p.1 = m
      · rw [if_pos hm, if_pos hm]
      · rw [if_neg hm, if_neg hm, ih]

theorem mem_keys_dictInsert {α : Type} (d : List (Nat × α)) (k : Nat) (v : α) (m : Nat)
    (h : m ∈ (dictInsert d k v).map Prod.fst) : m = k ∨ m ∈ d.map Prod.fst := by
  induction d with
  | nil => simpa [dictInsert] using h
  | cons p rest ih =>
    by_cases hp : p.1 = k
    · simp only [dictInsert, if_pos hp] at h
      rcases (by simpa using h : m = k ∨ m ∈ rest.map Prod.fst) with h | h
      · exact Or.inl h
      · exact Or.inr (by simp only [List.map_cons, List.mem_cons]; right; exact h)
    · simp only [dictInsert, if_neg hp] at h
      rcases (by simpa using h : m = p.1 ∨ m ∈ (dictInsert rest k v).map Prod.fst) with h | h
      · exact Or.inr (by simp [h])
      · rcases ih h with h | h
        · exact Or.inl h
        · exact Or.inr (by simp only [List.map_cons, List.mem_cons]; right; exact h)

theorem keysNodup_dictInsert {α : Type} (d : List (Nat × α)) (k : Nat) (v : α)
    (h : keysNodup d) : keysNodup (dictInsert d k v) := by
  induction d with
  | nil => simp [dictInsert, keysNodup]
  | cons p rest ih =>
    rw [keysNodup, List.map_cons, List.nodup_cons] at h
    by_cases hp : p.1 = k
    · subst hp
      rw [keysNodup, dictInsert, if_pos rfl]
      simpa [keysNodup] using h
    · rw [keysNodup, dictInsert, if_neg hp, List.map_cons, List.nodup_cons]
      refine ⟨fun hmem => ?_, ih h.2⟩
      rcases mem_keys_dictInsert rest k v p.1 hmem with he | he
      · exact hp he
      · exact h.1 he

theorem keys_dictErase_sublist {α : Type} (d : List (Nat × α)) (k : Nat) :
    List.Sublist ((dictErase d k).map Prod.fst) (d.map Prod.fst) := by
  induction d with
  | nil => simp [dictErase]
  | cons p rest ih =>
    by_cases hp : p.1 = k
    · rw [dictErase, if_pos hp, List.map_cons]
      exact ih.cons p.1
    · rw [dictErase, if_neg hp, List.map_cons, List.map_cons]
      exact ih.cons₂ p.1

theorem keysNodup_dictErase {α : Type} (d : List (Nat × α)) (k : Nat)
    (h : keysNodup d) : keysNodup (dictErase d k) :=
  h.sublist (keys_dictErase_sublist d k)

/-! ## Characterization of `cmpLoop` (first differing pair decides) -/

theorem cmpLoop_iff (cs ls : List Int) :
    cmpLoop cs ls = true ↔
      ∃ i c l, cs[i]? = some c ∧ ls[i]? = some l ∧ c < l ∧ cs.take i = ls.take i := by
  induction cs generalizing ls with
  | nil => simp [cmpLoop]
  | cons c cs ih =>
    cases ls with
    | nil => simp [cmpLoop]
    | cons l ls =>
      by_cases h1 : c < l
      · simp only [cmpLoop, if_pos h1]
        constructor
        · intro _
          exact ⟨0, c, l, by simp, by simp, h1, rfl⟩
        · intro _; trivial
      · by_cases h2 : l < c
        · simp only [cmpLoop, if_neg h1, if_pos h2]
          constructor
          · intro h; cases h
          · rintro ⟨i, c', l', hc, hl, hlt, htake⟩
            cases i with
            | zero =>
              simp only [List.getElem?_cons_zero, Option.some.injEq] at hc hl
              omega
            | succ j =>
              rw [List.take_succ_cons, List.take_succ_cons] at htake
              injection htake with he _
              omega
        · have hcl : c = l := le_antisymm (not_lt.1 h2) (not_lt.1 h1)
          subst hcl
          simp only [cmpLoop, if_neg h1, if_neg h2]
          rw [ih ls]
          constructor
          · rintro ⟨i, c', l', hc, hl, hlt, htake⟩
            exact ⟨i + 1, c', l', by simpa using hc, by simpa using hl, hlt, by
              simp [List.take_succ_cons, htake]⟩
          · rintro ⟨i, c', l', hc, hl, hlt, htake⟩
            cases i with
            | zero =>
              simp only [List.getElem?_cons_zero, Option.some.injEq] at hc hl
              omega
            | succ j =>
              refine ⟨j, c', l', by simpa using hc, by simpa using hl, hlt, ?_⟩
              rw [List.take_succ_cons, List.take_succ_cons] at htake
              injection htake

/-- C2: `compare_versions` splits both strings on `.`, parses the parts as
Python integers, and compares pairwise up to the shorter length; it returns
`true` exactly when the first differing pair within the compared prefix has
the larger component on the `latest` side; with no differing pair it
returns `false` (so `2.1` vs `2.1.0` is not newer); if either string has a
non-numeric component it returns the plain string inequality. -/
theorem C2_compare_versions_spec (current latest : String) :
    (∀ cs ls, parseVer current = some cs → parseVer latest = some ls →
      (compare_versions current latest = true ↔
        ∃ i c l, cs[i]? = some c ∧ ls[i]? = some l ∧ c < l ∧ cs.take i = ls.take i)) ∧
    ((parseVer current = none ∨ parseVer latest = none) →
      compare_versions current latest = (current != latest)) ∧
    compare_versions "2.1" "2.1.0" = false ∧
    compare_versions "2.1.0" "2.1.1" = true ∧
    compare_versions "2.1.1" "2.1.0" = false := by
  refine ⟨?_, ?_, by decide, by decide, by decide⟩
  · intro cs ls h1 h2
    rw [compare_versions, h1, h2]
    exact cmpLoop_iff cs ls
  · intro h
    rcases h with h | h
    · cases h2 : parseVer latest <;> simp [compare_versions, h, h2]
    · cases h1 : parseVer current <;> simp [compare_versions, h, h1]

/-- Witness for C2: a non-numeric component falls back to string inequality
at the concrete input `("x", "1.0")`. -/
theorem C2_witness : compare_versions "x" "1.0" = ("x" != "1.0") :=
  (C2_compare_versions_spec "x" "1.0").2.1 (Or.inl (by decide))

/-! ## base64 round-trip -/

theorem b64index_b64char_fin : ∀ n : Fin 64, b64index (b64char n.1) = n.1 := by decide

theorem b64index_b64char {n : Nat} (h : n < 64) : b64index (b64char n) = n :=
  b64index_b64char_fin ⟨n, h⟩

theorem b64char_ne_pad_fin : ∀ n : Fin 64, ¬ (b64char n.1 = '=') := by decide

theorem b64char_ne_pad (n : Nat) (h : n < 64) : ¬ (b64char n = '=') :=
  b64char_ne_pad_fin ⟨n, h⟩

theorem b64encode_eq_nil_iff : ∀ l : List Nat, b64encode l = [] ↔ l = []
  | [] => by simp [b64encode]
  | [_] => by simp [b64encode]
  | [_, _] => by simp [b64encode]
  | _ :: _ :: _ :: _ => by simp [b64encode]

theorem b64_roundtrip : ∀ l : List Nat, (∀ x ∈ l, x < 256) → b64decode (b64encode l) = l
  | [], _ => rfl
  | [a], h => by
    have ha : a < 256 := h a (by simp)
    have e1 := b64index_b64char (n := a / 4) (by omega)
    have e2 := b64index_b64char (n := a % 4 * 16) (by omega)
    simp [b64encode, b64decode, e1, e2]
    omega
  | [a, b], h => by
    have ha : a < 256 := h a (by simp)
    have hb : b < 256 := h b (by simp)
    have e1 := b64index_b64char (n := a / 4) (by omega)
    have e2 := b64index_b64char (n := a % 4 * 16 + b / 16) (by omega)
    have e3 := b64index_b64char (n := b % 16 * 4) (by omega)
    have ne3 := b64char_ne_pad (b % 16 * 4) (by omega)
    simp [b64encode, b64decode, e1, e2, e3, ne3]
    omega
  | a :: b :: c :: rest, h => by
    have ha : a < 256 := h a (by simp)
    have hb : b < 256 := h b (by simp)
    have hc : c < 256 := h c (by simp)
    have ih := b64_roundtrip rest (fun x hx => h x (by simp [hx]))
    have e1 := b64index_b64char (n := a / 4) (by omega)
    have e2 := b64index_b64char (n := a % 4 * 16 + b / 16) (by omega)
    have e3 := b64index_b64char (n := b % 16 * 4 + c / 64) (by omega)
    have e4 := b64index_b64char (n := c % 64) (by omega)
    have ne3 := b64char_ne_pad (b % 16 * 4 + c / 64) (by omega)
    have ne4 := b64char_ne_pad (c % 64) (by omega)
    rw [b64encode]
    by_cases hr : b64encode rest = []
    · have hrest : rest = [] := (b64encode_eq_nil_iff rest).1 hr
      subst hrest
      simp [b64decode, e1, e2, e3, e4, ne3, ne4, b64encode]
      omega
    · rw [b64decode]
      simp only [if_neg hr]
      rw [ih] at *
      simp [e1, e2, e3, e4, ih]
      omega

/-! ## Chunk slicing -/

/-- Ceiling division: the number of chunks needed to cover `len` bytes. -/
def numChunks (len C : Nat) : Nat := (len + C - 1) / C

theorem join_chunks {α : Type} (C : Nat) (F : List α) :
    ∀ k, ((List.range k).map (fun i => (F.drop (i * C)).take C)).flatten = F.take (k * C)
  | 0 => by simp
  | k + 1 => by
    rw [List.range_succ, List.map_append, List.flatten_append, join_chunks C F k]
    simp [Nat.succ_mul, List.take_add]

theorem le_numChunks_mul (len C : Nat) (hC : 0 < C) : len ≤ numChunks len C * C := by
  by_contra hlt
  push_neg at hlt
  have h1 : (numChunks len C + 1) * C ≤ len + C - 1 := by
    rw [Nat.succ_mul]
    omega
  have h2 : numChunks len C + 1 ≤ (len + C - 1) / C := (Nat.le_div_iff_mul_le hC).2 h1
  have hq : numChunks len C = (len + C - 1) / C := rfl
  rw [← hq] at h2
  omega

theorem slice_take_eq {α : Type} (F : List α) (s C : Nat) :
    (F.drop s).take (min (s + C) F.length - s) = (F.drop s).take C := by
  rw [List.take_eq_take]
  simp only [List.length_drop]
  omega

theorem send_ota_chunk_frame_mid (st : ServerState) (n idx : Nat) (sendOk : Bool)
    (sess : Session) (hs : dictLookup st.ota_sessions n = some sess)
    (hlt : idx * sess.chunk_size < sess.firmware_data.length) :
    (send_ota_chunk st n idx sendOk).frame =
      some (Frame.ota_chunk n idx (b64encode
        ((sess.firmware_data.drop (idx * sess.chunk_size)).take sess.chunk_size))) := by
  simp only [send_ota_chunk, hs]
  rw [if_neg (by omega)]
  simp only [slice_take_eq]

theorem send_ota_chunk_end (st : ServerState) (n idx : Nat) (sendOk : Bool)
    (sess : Session) (hs : dictLookup st.ota_sessions n = some sess)
    (hge : sess.firmware_data.length ≤ idx * sess.chunk_size) :
    send_ota_chunk st n idx sendOk = ⟨st, some (Frame.ota_end n), [], true⟩ := by
  simp only [send_ota_chunk, hs]
  rw [if_pos hge]

/-- C1: for a session with firmware buffer `F` and chunk size `C > 0`, the
frame sent for index `idx` with `idx*C < |F|` is `ota_chunk` carrying
exactly the base64 encoding of bytes `[idx*C, min((idx+1)*C, |F|))` of `F`;
for `idx*C ≥ |F|` an `ota_end` frame is sent instead and the state — in
particular the session map — is unchanged; and concatenating the decoded
chunk payloads for `idx = 0 .. ceil(|F|/C)-1` in ascending order
reproduces `F` exactly. -/
theorem C1_chunk_round_trip (st : ServerState) (n : Nat) (sess : Session) (sendOk : Bool)
    (hs : dictLookup st.ota_sessions n = some sess)
    (hC : 0 < sess.chunk_size)
    (hb : ∀ x ∈ sess.firmware_data, x < 256) :
    (∀ idx, idx * sess.chunk_size < sess.firmware_data.length →
      (send_ota_chunk st n idx sendOk).frame =
        some (Frame.ota_chunk n idx (b64encode
          ((sess.firmware_data.drop (idx * sess.chunk_size)).take sess.chunk_size)))) ∧
    (∀ idx, sess.firmware_data.length ≤ idx * sess.chunk_size →
      (send_ota_chunk st n idx sendOk).frame = some (Frame.ota_end n) ∧
      (send_ota_chunk st n idx sendOk).state = st) ∧
    ((List.range (numChunks sess.firmware_data.length sess.chunk_size)).map
        (fun idx => b64decode (b64encode
          ((sess.firmware_data.drop (idx * sess.chunk_size)).take sess.chunk_size)))).flatten
      = sess.firmware_data := by
  refine ⟨?_, ?_, ?_⟩
  · intro idx hlt
    exact send_ota_chunk_frame_mid st n idx sendOk sess hs hlt
  · intro idx hge
    rw [send_ota_chunk_end st n idx sendOk sess hs hge]
    exact ⟨rfl, rfl⟩
  · have hmap : ∀ i ∈ List.range (numChunks sess.firmware_data.length sess.chunk_size),
        b64decode (b64encode
          ((sess.firmware_data.drop (i * sess.chunk_size)).take sess.chunk_size)) =
        (sess.firmware_data.drop (i * sess.chunk_size)).take sess.chunk_size := by
      intro i _
      exact b64_roundtrip _
        (fun x hx => hb x (List.mem_of_mem_drop (List.mem_of_mem_take hx)))
    rw [List.map_congr_left hmap, join_chunks]
    exact List.take_of_length_le
      (le_numChunks_mul sess.firmware_data.length sess.chunk_size hC)

/-- Witness for C1: on a 5-byte firmware with chunk size 2, index 2 sends the
base64 of the final 1-byte slice. -/
theorem C1_witness :
    (send_ota_chunk ⟨[⟨7, "Node_7", "2.0.0", "sensor", "updating"⟩], [],
        [(7, ⟨[10, 20, 30, 40, 50], "2.1.0", 5, 2, "Node_7", false⟩)]⟩ 7 2 true).frame =
      some (Frame.ota_chunk 7 2 (b64encode [50])) :=
  (C1_chunk_round_trip
    ⟨[⟨7, "Node_7", "2.0.0", "sensor", "updating"⟩], [],
     [(7, ⟨[10, 20, 30, 40, 50], "2.1.0", 5, 2, "Node_7", false⟩)]⟩
    7 ⟨[10, 20, 30, 40, 50], "2.1.0", 5, 2, "Node_7", false⟩ true
    (by decide) (by decide) (by decide)).1 2 (by decide)

/-! ## C3: trigger with an existing session -/

/-- C3 counterexample: a manual trigger (`ota_update_core`) for node 1, which
already holds a session with firmware `[1,2,3]`, silently replaces that
session with a new one holding firmware `[9,9]` — there is no `NoSession`
precondition in the code. -/
theorem C3_counterexample :
    dictLookup (ota_update_core
        ⟨[⟨1, "Node_1", "1.0.0", "sensor", "online"⟩], [],
         [(1, ⟨[1, 2, 3], "1.0.0", 3, 1024, "Node_1", false⟩)]⟩
        1 "2.0.0" (some [9, 9]) "admin" true true "t1").state.ota_sessions 1 =
      some ⟨[9, 9], "2.0.0", 2, 1024, "Node_1", false⟩ ∧
    (⟨[9, 9], "2.0.0", 2, 1024, "Node_1", false⟩ : Session) ≠
      ⟨[1, 2, 3], "1.0.0", 3, 1024, "Node_1", false⟩ := by
  decide

/-- C3 amended: the session map is keyed by node id, so at most one session
per node exists (key uniqueness is preserved by every trigger), but a
trigger for a node with an existing session does not require `NoSession`:
it unconditionally replaces the stored session (and, on a failed offer
send, deletes the entry altogether); the auto worker behaves the same. -/
theorem C3_amended_trigger_overwrites (st : ServerState) (n : Nat) (version : String)
    (fw : List Nat) (ib : String) (sendOk : Bool) (now : String) (nd : Node)
    (hn : findNode st.nodes n = some nd) :
    (sendOk = true →
      dictLookup (ota_update_core st n version (some fw) ib true sendOk now).state.ota_sessions n
        = some ⟨fw, version, fw.length, 1024, nd.name, false⟩) ∧
    (sendOk = false →
      dictLookup (ota_update_core st n version (some fw) ib true sendOk now).state.ota_sessions n
        = none) ∧
    (∀ m, m ≠ n →
      dictLookup (ota_update_core st n version (some fw) ib true sendOk now).state.ota_sessions m
        = dictLookup st.ota_sessions m) ∧
    (keysNodup st.ota_sessions →
      keysNodup (ota_update_core st n version (some fw) ib true sendOk now).state.ota_sessions) ∧
    (∀ nm hf hr (so : Bool),
      (so = true →
        dictLookup
          (auto_ota_worker st n nm none version (DownloadOutcome.ok fw) hf hr so now).state.ota_sessions n
          = some ⟨fw, version, fw.length, 1024, nm, true⟩) ∧
      (so = false →
        dictLookup
          (auto_ota_worker st n nm none version (DownloadOutcome.ok fw) hf hr so now).state.ota_sessions n
          = none) ∧
      (∀ m, m ≠ n →
        dictLookup
          (auto_ota_worker st n nm none version (DownloadOutcome.ok fw) hf hr so now).state.ota_sessions m
          = dictLookup st.ota_sessions m) ∧
      (keysNodup st.ota_sessions →
        keysNodup
          (auto_ota_worker st n nm none version (DownloadOutcome.ok fw) hf hr so now).state.ota_sessions)) := by
  refine ⟨?_, ?_, ?_, ?_, ?_⟩
  · rintro rfl
    simp only [ota_update_core, hn, Bool.not_true, Bool.false_eq_true, if_false]
    exact dictLookup_insert_self _ _ _
  · rintro rfl
    simp only [ota_update_core, hn, Bool.not_true, Bool.not_false, Bool.false_eq_true,
      if_false, if_true]
    exact dictLookup_erase_self _ _
  · intro m hm
    cases sendOk with
    | true =>
      simp only [ota_update_core, hn, Bool.not_true, Bool.false_eq_true, if_false]
      exact dictLookup_insert_ne _ _ _ _ hm
    | false =>
      simp only [ota_update_core, hn, Bool.not_true, Bool.not_false, Bool.false_eq_true,
        if_false, if_true]
      rw [dictLookup_erase_ne _ _ _ hm]
      exact dictLookup_insert_ne _ _ _ _ hm
  · intro hnodup
    cases sendOk with
    | true =>
      simp only [ota_update_core, hn, Bool.not_true, Bool.false_eq_true, if_false]
      exact keysNodup_dictInsert _ _ _ hnodup
    | false =>
      simp only [ota_update_core, hn, Bool.not_true, Bool.not_false, Bool.false_eq_true,
        if_false, if_true]
      exact keysNodup_dictErase _ _ (keysNodup_dictInsert _ _ _ hnodup)
  · intro nm hf hr so
    cases so with
    | true =>
      refine ⟨fun _ => ?_, fun h => Bool.noConfusion h, ?_, ?_⟩
      · simp only [auto_ota_worker, if_true]
        exact dictLookup_insert_self _ _ _
      · intro m hm
        simp only [auto_ota_worker, if_true]
        exact dictLookup_insert_ne _ _ _ _ hm
      · intro hnodup
        simp only [auto_ota_worker, if_true]
        exact keysNodup_dictInsert _ _ _ hnodup
    | false =>
      refine ⟨fun h => Bool.noConfusion h, fun _ => ?_, ?_, ?_⟩
      · simp only [auto_ota_worker, Bool.false_eq_true, if_false]
        exact dictLookup_erase_self _ _
      · intro m hm
        simp only [auto_ota_worker, Bool.false_eq_true, if_false]
        rw [dictLookup_erase_ne _ _ _ hm]
        exact dictLookup_insert_ne _ _ _ _ hm
      · intro hnodup
        simp only [auto_ota_worker, Bool.false_eq_true, if_false]
        exact keysNodup_dictErase _ _ (keysNodup_dictInsert _ _ _ hnodup)

/-- Witness for C3 (amended): a trigger on a node with no prior session
stores the new session under its id. -/
theorem C3_witness :
    dictLookup (ota_update_core
        ⟨[⟨2, "Node_2", "1.0.0", "sensor", "online"⟩], [], []⟩
        2 "3.0.0" (some [5]) "admin" true true "t0").state.ota_sessions 2 =
      some ⟨[5], "3.0.0", 1, 1024, "Node_2", false⟩ :=
  (C3_amended_trigger_overwrites
    ⟨[⟨2, "Node_2", "1.0.0", "sensor", "online"⟩], [], []⟩
    2 "3.0.0" [5] "admin" true "t0"
    ⟨2, "Node_2", "1.0.0", "sensor", "online"⟩ (by decide)).1 rfl

/-! ## C4: ota_result with ok == false -/

/-- C4: processing `ota_result{ok:false}` for node 1, which has an open
`"initiated"` history entry and an active session, leaves the history
entry untouched (still `"initiated"`, no `completedAt`) because the
history-update loop is guarded by `if success and new_version:`; the node
record is unchanged, the session is deleted, and a completion event is
emitted.  This contradicts the claim that the entry is marked `"failed"`. -/
theorem C4_failed_result_leaves_history :
    (handle_ota_result
        ⟨[⟨1, "Node_1", "1.0.0", "sensor", "updating"⟩],
         [⟨1, 1, "Node_1", "2.0.0", "initiated", "admin", "t0", 3, none⟩],
         [(1, ⟨[1, 2, 3], "2.0.0", 3, 1024, "Node_1", false⟩)]⟩
        1 false "flash write error" "" "t1") =
      (⟨[⟨1, "Node_1", "1.0.0", "sensor", "updating"⟩],
        [⟨1, 1, "Node_1", "2.0.0", "initiated", "admin", "t0", 3, none⟩],
        []⟩,
       [Event.ota_complete false 1 false "flash write error" ""]) := by
  decide

/-! ## C5: which open history entry a successful result completes -/

theorem markFirstInitiated_append (nid : Nat) (ns now : String) (pre : List HistoryEntry)
    (hpre : ∀ e' ∈ pre, ¬(e'.node_id = nid ∧ e'.status = "initiated")) (e : HistoryEntry)
    (he : e.node_id = nid ∧ e.status = "initiated") (post : List HistoryEntry) :
    markFirstInitiated nid ns now (pre ++ e :: post) =
      pre ++ { e with status := ns, completed_at := some now } :: post := by
  induction pre with
  | nil => simp [markFirstInitiated, he]
  | cons p rest ih =>
    rw [List.cons_append, markFirstInitiated, if_neg (hpre p (by simp)),
      ih (fun e' h' => hpre e' (by simp [h']))]
    rfl

/-- C5 counterexample: with two open (`"initiated"`) history entries for
node 1, a successful `ota_result` marks the FIRST-appended (oldest) entry
`"completed"` — the `for ... break` loop scans the log from the front — and
leaves the most recently appended open entry untouched, contradicting the
claim that the most recent open entry is completed. -/
theorem C5_counterexample :
    (handle_ota_result
        ⟨[⟨1, "Node_1", "1.0.0", "sensor", "updating"⟩],
         [⟨1, 1, "Node_1", "2.0.0", "initiated", "admin", "t0", 3, none⟩,
          ⟨2, 1, "Node_1", "2.1.0", "initiated", "admin", "t1", 3, none⟩],
         [(1, ⟨[1], "2.1.0", 1, 1024, "Node_1", false⟩)]⟩
        1 true "ok" "2.1.0" "t2").1.ota_history =
      [⟨1, 1, "Node_1", "2.0.0", "completed", "admin", "t0", 3, some "t2"⟩,
       ⟨2, 1, "Node_1", "2.1.0", "initiated", "admin", "t1", 3, none⟩] := by
  decide

/-- C5 amended: processing `ota_result{ok:true, new_version}` for a
registered node marks the EARLIEST (first-appended) open history entry for
that node `"completed"` and sets its `completedAt`, leaving every later
entry — including later open entries for the same node — unchanged. -/
theorem C5_amended_completes_earliest (st : ServerState) (n : Nat) (msg nv now : String)
    (pre post : List HistoryEntry) (e : HistoryEntry) (nd : Node)
    (hh : st.ota_history = pre ++ e :: post)
    (hpre : ∀ e' ∈ pre, ¬(e'.node_id = n ∧ e'.status = "initiated"))
    (he : e.node_id = n ∧ e.status = "initiated")
    (hn : findNode st.nodes n = some nd)
    (hnv : nv ≠ "") :
    (handle_ota_result st n true msg nv now).1.ota_history =
      pre ++ { e with status := "completed", completed_at := some now } :: post := by
  simp only [handle_ota_result, hn]
  rw [hh, markFirstInitiated_append n _ now pre hpre e he post,
    if_pos (show True ∧ nv ≠ "" from ⟨trivial, hnv⟩)]
  simp

/-- Witness for C5 (amended): a single open entry for node 1 is completed. -/
theorem C5_witness :
    (handle_ota_result
        ⟨[⟨1, "Node_1", "1.0.0", "sensor", "updating"⟩],
         [⟨1, 1, "Node_1", "2.0.0", "initiated", "admin", "t0", 3, none⟩],
         [(1, ⟨[1], "2.0.0", 1, 1024, "Node_1", false⟩)]⟩
        1 true "ok" "2.0.0" "t2").1.ota_history =
      [⟨1, 1, "Node_1", "2.0.0", "completed", "admin", "t0", 3, some "t2"⟩] :=
  C5_amended_completes_earliest
    ⟨[⟨1, "Node_1", "1.0.0", "sensor", "updating"⟩],
     [⟨1, 1, "Node_1", "2.0.0", "initiated", "admin", "t0", 3, none⟩],
     [(1, ⟨[1], "2.0.0", 1, 1024, "Node_1", false⟩)]⟩
    1 "ok" "2.0.0" "t2" []
    [] ⟨1, 1, "Node_1", "2.0.0", "initiated", "admin", "t0", 3, none⟩
    ⟨1, "Node_1", "1.0.0", "sensor", "updating"⟩
    rfl (by simp) (by decide) (by decide) (by decide)

/-! ## C6: stray protocol messages -/

/-- C6 counterexample: a stray `ota_result{ok:true, new_version:"9.9.9"}`
for node 1, which has NO active session but is present in the registry,
still rewrites the node record (version and status) — the registry is not
left unchanged as the claim states. -/
theorem C6_counterexample :
    (handle_ota_result ⟨[⟨1, "Node_1", "1.0.0", "sensor", "offline"⟩], [], []⟩
        1 true "done" "9.9.9" "t1").1.nodes =
      [⟨1, "Node_1", "9.9.9", "sensor", "online"⟩] ∧
    (⟨1, "Node_1", "9.9.9", "sensor", "online"⟩ : Node) ≠
      ⟨1, "Node_1", "1.0.0", "sensor", "offline"⟩ := by
  decide

/-- C6 amended: with no active session for the source node, `ota_accept`
and `ota_next` change nothing and send nothing; `ota_error` changes no
state (it still emits its error event); `ota_result` sends no frame and
leaves the session map unchanged, and when `ok` is false, `new_version` is
empty, or the node is unregistered it changes no state at all — but (per
the counterexample) a stray `ota_result{ok:true, new_version}` for a
registered node still updates the node record and history. -/
theorem C6_amended_stray_messages (st : ServerState) (n idx : Nat) (sendOk ok : Bool)
    (msg nv em now : String) (h : dictLookup st.ota_sessions n = none) :
    handle_ota_accept st n sendOk = ⟨st, none, [], false⟩ ∧
    handle_ota_next st n idx sendOk = ⟨st, none, [], false⟩ ∧
    handle_ota_error st n em = (st, [Event.ota_error_evt false n em]) ∧
    (handle_ota_result st n ok msg nv now).1.ota_sessions = st.ota_sessions ∧
    (¬(ok = true ∧ nv ≠ "") →
      handle_ota_result st n ok msg nv now = (st, [Event.ota_complete false n ok msg nv])) ∧
    (findNode st.nodes n = none →
      handle_ota_result st n ok msg nv now = (st, [Event.ota_complete false n ok msg nv])) := by
  refine ⟨?_, ?_, ?_, ?_, ?_, ?_⟩
  · simp [handle_ota_accept, h]
  · simp [handle_ota_next, h]
  · simp only [handle_ota_error, h]
    rw [dictErase_of_lookup_none _ _ h]
    rfl
  · by_cases hok : ok = true ∧ nv ≠ ""
    · cases hfn : findNode st.nodes n with
      | none => simp only [handle_ota_result, hfn, if_pos hok]
                exact dictErase_of_lookup_none _ _ h
      | some nd => simp only [handle_ota_result, hfn, if_pos hok]
                   exact dictErase_of_lookup_none _ _ h
    · simp only [handle_ota_result, if_neg hok]
      exact dictErase_of_lookup_none _ _ h
  · intro hok
    simp only [handle_ota_result, if_neg hok, h]
    rw [dictErase_of_lookup_none _ _ h]
    rfl
  · intro hfn
    by_cases hok : ok = true ∧ nv ≠ ""
    · simp only [handle_ota_result, hfn, if_pos hok, h]
      rw [dictErase_of_lookup_none _ _ h]
      rfl
    · simp only [handle_ota_result, if_neg hok, h]
      rw [dictErase_of_lookup_none _ _ h]
      rfl

/-- Witness for C6 (amended): stray `ota_accept` for node 9 on an empty
session map does nothing. -/
theorem C6_witness :
    handle_ota_accept ⟨[], [], []⟩ 9 true = ⟨⟨[], [], []⟩, none, [], false⟩ :=
  (C6_amended_stray_messages ⟨[], [], []⟩ 9 0 true true "" "" "" "" rfl).1

/-! ## C7: cooldown on manifest failure -/

/-- C7 counterexample: node 1 is not in cooldown (empty cooldown table),
auto-OTA is enabled, and the manifest lookup fails (`none`): the handler
returns before the cooldown write, so the cooldown table stays empty —
the claim that the cooldown timestamp is still recorded is false. -/
theorem C7_counterexample :
    handle_ota_check_auto ⟨[⟨1, "Node_1", "1.0.0", "sensor", "online"⟩], [], []⟩
        [] true 1000 1 "sensor" "1.0.0" none =
      (⟨[⟨1, "Node_1", "1.0.0", "sensor", "online"⟩], [], []⟩, [], none) := by
  decide

/-- C7 amended: when the manifest fetch fails (no firmware URL for the
node's role), `handle_ota_check_auto` is a complete no-op for a node not
in cooldown: no session, no history entry, no node upsert, no worker — and
the cooldown timestamp is NOT recorded either (the cooldown write happens
only after a worker is actually launched). -/
theorem C7_amended_manifest_failure_noop (st : ServerState) (cd : List (Nat × Nat))
    (now n : Nat) (role fw : String)
    (hcool : ¬(now - (dictLookup cd n).getD 0 < 300)) :
    handle_ota_check_auto st cd true now n role fw none = (st, cd, none) := by
  simp only [handle_ota_check_auto, Bool.not_true, Bool.false_eq_true, if_false,
    if_neg hcool]

/-- Witness for C7 (amended): concrete no-op run with a manifest failure. -/
theorem C7_witness :
    handle_ota_check_auto ⟨[], [], []⟩ [(4, 100)] true 900 4 "gateway" "0.9.0" none =
      (⟨[], [], []⟩, [(4, 100)], none) :=
  C7_amended_manifest_failure_noop ⟨[], [], []⟩ [(4, 100)] 900 4 "gateway" "0.9.0"
    (by decide)

/-! ## C8: temporary artifact cleanup in the auto-OTA worker -/

/-- C8 counterexample: a download failure part-way through streaming the
body — after `tempfile.mkstemp` has created the artifact — makes the worker
return from the `except` clause without removing the temp file: the
artifact is leaked on that exit path. -/
theorem C8_counterexample :
    (auto_ota_worker ⟨[], [], []⟩ 1 "Node_1" (some "aa") "2.0.0"
        (DownloadOutcome.failAfterTemp [1]) (fun _ => "") false true "t0").tempCreated = true ∧
    (auto_ota_worker ⟨[], [], []⟩ 1 "Node_1" (some "aa") "2.0.0"
        (DownloadOutcome.failAfterTemp [1]) (fun _ => "") false true "t0").tempRemoved = false :=
  ⟨rfl, rfl⟩

/-- C8 amended: whenever the download completes, the temporary artifact is
removed before the worker returns on every subsequent exit path (SHA256
mismatch, SHA256 verification error, send success, send failure); a
download failure before the temp file exists creates nothing; but a
download failure after the temp file was created (mid-stream) returns
WITHOUT removing it — cleanup holds on every exit path except that one. -/
theorem C8_amended_cleanup (st : ServerState) (n : Nat) (nm : String) (sha : Option String)
    (v : String) (bytes leftover : List Nat) (hf : List Nat → String) (hr so : Bool)
    (now : String) :
    (auto_ota_worker st n nm sha v (DownloadOutcome.ok bytes) hf hr so now).tempCreated = true ∧
    (auto_ota_worker st n nm sha v (DownloadOutcome.ok bytes) hf hr so now).tempRemoved = true ∧
    (auto_ota_worker st n nm sha v DownloadOutcome.failBeforeTemp hf hr so now).tempCreated
      = false ∧
    (auto_ota_worker st n nm sha v (DownloadOutcome.failAfterTemp leftover) hf hr so now).tempCreated
      = true ∧
    (auto_ota_worker st n nm sha v (DownloadOutcome.failAfterTemp leftover) hf hr so now).tempRemoved
      = false := by
  have hok : (auto_ota_worker st n nm sha v (DownloadOutcome.ok bytes) hf hr so now).tempCreated
        = true ∧
      (auto_ota_worker st n nm sha v (DownloadOutcome.ok bytes) hf hr so now).tempRemoved
        = true := by
    cases sha with
    | none => cases so <;> exact ⟨rfl, rfl⟩
    | some s =>
      cases hr with
      | true => exact ⟨rfl, rfl⟩
      | false =>
        by_cases hm : (hf bytes).toLower ≠ s.toLower
        · simp only [auto_ota_worker, if_pos hm]
          exact ⟨rfl, rfl⟩
        · simp only [auto_ota_worker, if_neg hm]
          cases so <;> exact ⟨rfl, rfl⟩
  exact ⟨hok.1, hok.2, rfl, rfl, rfl⟩

/-! ## C9: exception during SHA256 computation -/

/-- C9: in the auto-OTA worker, an exception while computing the SHA256
digest (download had completed, a hash was specified) removes the temp
artifact and aborts with the state unchanged — no session, no history
entry, no frame — and, unlike the mismatch path, emits no
`auto_ota_failed` event: only the initial `auto_ota_started` is visible. -/
theorem C9_sha_error_silent_abort (st : ServerState) (n : Nat) (nm s v : String)
    (bytes : List Nat) (hf : List Nat → String) (so : Bool) (now : String) :
    auto_ota_worker st n nm (some s) v (DownloadOutcome.ok bytes) hf true so now =
      ⟨true, true, st, [], [Event.auto_ota_started n]⟩ :=
  rfl

/-! ## C10: successful ota_result for a node absent from the registry -/

/-- C10: for `ota_result{ok:true}` with a non-empty `new_version` whose
source node is not in the registry, no node record is created or updated
and no history entry is completed (the whole update block is inside
`if node:`), yet the session for that id, if any, is still deleted and the
completion event is still emitted. -/
theorem C10_result_unknown_node (st : ServerState) (n : Nat) (msg nv now : String)
    (hnv : nv ≠ "") (hn : findNode st.nodes n = none) :
    (handle_ota_result st n true msg nv now).1.nodes = st.nodes ∧
    (handle_ota_result st n true msg nv now).1.ota_history = st.ota_history ∧
    (handle_ota_result st n true msg nv now).1.ota_sessions = dictErase st.ota_sessions n ∧
    (handle_ota_result st n true msg nv now).2 =
      [Event.ota_complete (((dictLookup st.ota_sessions n).map Session.auto).getD false)
        n true msg nv] := by
  simp only [handle_ota_result, hn, if_pos (show True ∧ nv ≠ "" from ⟨trivial, hnv⟩)]
  exact ⟨trivial, trivial, trivial, trivial⟩

/-- Witness for C10: node 3 is unknown but holds a session; the session is
deleted, registry and history stay empty, the completion event fires. -/
theorem C10_witness :
    (handle_ota_result ⟨[], [], [(3, ⟨[1], "2.0.0", 1, 1024, "Node_3", true⟩)]⟩
        3 true "done" "2.0.0" "t1").1.nodes = [] ∧
    (handle_ota_result ⟨[], [], [(3, ⟨[1], "2.0.0", 1, 1024, "Node_3", true⟩)]⟩
        3 true "done" "2.0.0" "t1").1.ota_history = [] ∧
    (handle_ota_result ⟨[], [], [(3, ⟨[1], "2.0.0", 1, 1024, "Node_3", true⟩)]⟩
        3 true "done" "2.0.0" "t1").1.ota_sessions =
      dictErase [(3, ⟨[1], "2.0.0", 1, 1024, "Node_3", true⟩)] 3 ∧
    (handle_ota_result ⟨[], [], [(3, ⟨[1], "2.0.0", 1, 1024, "Node_3", true⟩)]⟩
        3 true "done" "2.0.0" "t1").2 = [Event.ota_complete true 3 true "done" "2.0.0"] :=
  C10_result_unknown_node ⟨[], [], [(3, ⟨[1], "2.0.0", 1, 1024, "Node_3", true⟩)]⟩
    3 "done" "2.0.0" "t1" (by decide) rfl

end OTA
